import Mathlib

/-!
Verification development for the orderflow streaming metrics engine.

The engine under study ingests executed trades and order-book snapshots and
derives rolling-window metrics (order-book imbalance, VWAP, delta z-score,
CVD slope, heuristic pattern scores, a composite trade signal and an
exhaustion flag), together with a rate-limited open-interest tracker.

The embedding is shallow: JavaScript numbers become real numbers, timestamps
become integers, the mutable calculator instance becomes an explicit state
record threaded through the operations, the bounded FIFO push-then-shift
pattern becomes `pushCapped`, and the asynchronous open-interest fetch
becomes an explicit `FetchOutcome` argument.  Each definition mirrors one
function of `LegacyCalculator.ts` or `OpenInterestMonitor.ts`; local
constants of `computeMetrics` become named definitions (`obiWeightedOf`,
`priceChangeOf`, ...) so that theorems can speak about them directly.
-/

namespace Orderflow

/-- EPSILON constant of `LegacyCalculator.ts` (1e-12). -/
noncomputable def EPSILON : ℝ := 1e-12

/-- ATR window constant (14). -/
def ATR_WINDOW : ℕ := 14

/-- Sweep detection window constant (30). -/
def SWEEP_DETECTION_WINDOW : ℕ := 30

/-- Breakout window constant (15). -/
def BREAKOUT_WINDOW : ℕ := 15

/-- Absorption window constant (60). -/
def ABSORPTION_WINDOW : ℕ := 60

/-- Volatility history capacity constant (3600). -/
def VOLATILITY_HISTORY_SIZE : ℕ := 3600

/-- Trade side, the `'buy' | 'sell'` string union of the source. -/
inductive Side
  | buy
  | sell
deriving DecidableEq

/-- LegacyTrade record: price, quantity, side and an integer millisecond
timestamp. -/
structure LegacyTrade where
  price : ℝ
  quantity : ℝ
  side : Side
  timestamp : ℤ

/-- Signed quantity of a trade: `side === 'buy' ? qty : -qty`. -/
def signedQty (t : LegacyTrade) : ℝ :=
  match t.side with
  | .buy => t.quantity
  | .sell => -t.quantity

/-- Mutable state of a `LegacyCalculator` instance: the rolling trade window,
the bounded histories, the session accumulators and the last mid-price. -/
structure CalcState where
  trades : List LegacyTrade
  deltaHistory : List ℝ
  cvdHistory : List ℝ
  cvdSession : ℝ
  totalVolume : ℝ
  totalNotional : ℝ
  volatilityHistory : List ℝ
  volumeHistory : List ℝ
  lastMidPrice : ℝ

/-- State of a freshly constructed `LegacyCalculator`. -/
def initState : CalcState :=
  { trades := []
    deltaHistory := []
    cvdHistory := []
    cvdSession := 0
    totalVolume := 0
    totalNotional := 0
    volatilityHistory := []
    volumeHistory := []
    lastMidPrice := 0 }

/-- Bounded FIFO push used throughout the source: `arr.push(v); if
(arr.length > cap) arr.shift();`. -/
def pushCapped {α : Type} (h : List α) (v : α) (cap : ℕ) : List α :=
  let h2 := h ++ [v]
  if cap < h2.length then h2.tail else h2

/-- Last `n` elements of a list, the JavaScript `arr.slice(-n)` for `n > 0`. -/
def takeLast {α : Type} (n : ℕ) (l : List α) : List α :=
  l.drop (l.length - n)

/-- All but the last `n` elements, so that `takeLast m (dropLastN n l)` is the
JavaScript `arr.slice(-(n+m), -n)`. -/
def dropLastN {α : Type} (n : ℕ) (l : List α) : List α :=
  l.take (l.length - n)

/-- Last element of a real list, defaulting to 0; `arr[arr.length - 1]` at
call sites that first check the length. -/
def lastD (l : List ℝ) : ℝ :=
  l.getLast?.getD 0

/-- addTrade of `LegacyCalculator`: append the trade, update the session
accumulators, evict window entries older than 10 s from the front, recompute
`delta1s` over the trailing 1 s, and push into the bounded histories.  The
source also computes `delta5s` and `count1s` here, but both are dead locals,
so they are omitted. -/
def addTrade (s : CalcState) (t : LegacyTrade) : CalcState :=
  let trades1 := s.trades ++ [t]
  let newTotalVolume := s.totalVolume + t.quantity
  let newTotalNotional := s.totalNotional + t.quantity * t.price
  let newCvdSession := s.cvdSession + signedQty t
  let cutoff := t.timestamp - 10000
  let trades2 := trades1.dropWhile (fun x => x.timestamp < cutoff)
  let delta1s := ((trades2.filter (fun x => t.timestamp - 1000 ≤ x.timestamp)).map signedQty).sum
  { trades := trades2
    deltaHistory := pushCapped s.deltaHistory delta1s 60
    cvdHistory := pushCapped s.cvdHistory newCvdSession 60
    cvdSession := newCvdSession
    totalVolume := newTotalVolume
    totalNotional := newTotalNotional
    volatilityHistory := s.volatilityHistory
    volumeHistory := pushCapped s.volumeHistory t.quantity 100
    lastMidPrice := s.lastMidPrice }

/-- calculateStdDev of `LegacyCalculator`: population standard deviation,
0 for empty input. -/
noncomputable def calculateStdDev (values : List ℝ) : ℝ :=
  if values.length = 0 then 0
  else
    let mean := values.sum / (values.length : ℝ)
    let variance := (values.map (fun v => (v - mean) ^ 2)).sum / (values.length : ℝ)
    Real.sqrt variance

/-- calculateSlope of `LegacyCalculator`: ordinary least-squares slope of the
values against indices `0..n-1`; 0 when `n < 2` or the denominator is within
EPSILON of 0. -/
noncomputable def calculateSlope (values : List ℝ) : ℝ :=
  let n := values.length
  if n < 2 then 0
  else
    let sumX : ℝ := ((List.range n).map (fun i => (i : ℝ))).sum
    let sumY := values.sum
    let sumXX : ℝ := ((List.range n).map (fun i => (i : ℝ) * (i : ℝ))).sum
    let sumXY : ℝ := (values.enum.map (fun p => (p.1 : ℝ) * p.2)).sum
    let denom := (n : ℝ) * sumXX - sumX * sumX
    if |denom| < EPSILON then 0 else ((n : ℝ) * sumXY - sumX * sumY) / denom

/-- Absolute consecutive differences of a price sequence, the `trueRanges`
array of calculateATR. -/
def trueRangesOf : List ℝ → List ℝ
  | a :: b :: rest => |b - a| :: trueRangesOf (b :: rest)
  | _ => []

/-- calculateATR of `LegacyCalculator`: mean absolute consecutive price
difference over the last `min(14, count)` differences; 0 with fewer than two
trades. -/
noncomputable def calculateATR (trades : List LegacyTrade) : ℝ :=
  if trades.length < 2 then 0
  else
    let trueRanges := trueRangesOf (trades.map (fun t => t.price))
    if trueRanges.length = 0 then 0
    else
      let windowSize := min ATR_WINDOW trueRanges.length
      (takeLast windowSize trueRanges).sum / (windowSize : ℝ)

/-- Math.sign on real numbers. -/
noncomputable def mathSign (x : ℝ) : ℝ :=
  if 0 < x then 1 else if x < 0 then -1 else 0

/-- Orderbook snapshot: price to quantity levels on each side.  The source
consumes a `Map<number, number>` per side; a list of price-quantity pairs
models its entry list. -/
structure OrderbookState where
  bids : List (ℝ × ℝ)
  asks : List (ℝ × ℝ)

/-- Insertion step of an ascending sort by price. -/
noncomputable def insertByAsc (x : ℝ × ℝ) : List (ℝ × ℝ) → List (ℝ × ℝ)
  | [] => [x]
  | y :: ys => if x.1 ≤ y.1 then x :: y :: ys else y :: insertByAsc x ys

/-- Ascending sort by price, the `entries.sort((a, b) => a[0] - b[0])` of
calcVolume. -/
noncomputable def sortAsc : List (ℝ × ℝ) → List (ℝ × ℝ)
  | [] => []
  | x :: xs => insertByAsc x (sortAsc xs)

/-- Insertion step of a descending sort by price. -/
noncomputable def insertByDesc (x : ℝ × ℝ) : List (ℝ × ℝ) → List (ℝ × ℝ)
  | [] => [x]
  | y :: ys => if y.1 ≤ x.1 then x :: y :: ys else y :: insertByDesc x ys

/-- Descending sort by price, the `entries.sort((a, b) => b[0] - a[0])` of
calcVolume. -/
noncomputable def sortDesc : List (ℝ × ℝ) → List (ℝ × ℝ)
  | [] => []
  | x :: xs => insertByDesc x (sortDesc xs)

/-- calcVolume helper of computeMetrics: sort the levels (bids descending,
asks ascending) and sum the quantity of the top `depth` levels. -/
noncomputable def calcVolume (levels : List (ℝ × ℝ)) (depth : ℕ) (isAsk : Bool) : ℝ :=
  let sorted := if isAsk then sortAsc levels else sortDesc levels
  ((sorted.take depth).map Prod.snd).sum

/-- Maximum of a real list, as an Option. -/
noncomputable def listMax : List ℝ → Option ℝ
  | [] => none
  | x :: xs =>
    match listMax xs with
    | none => some x
    | some m => some (max x m)

/-- Minimum of a real list, as an Option. -/
noncomputable def listMin : List ℝ → Option ℝ
  | [] => none
  | x :: xs =>
    match listMin xs with
    | none => some x
    | some m => some (min x m)

/-- Minimum of a nonempty real list (`Math.min(...values)`); 0 on the empty
list, which every call site rules out by a length guard. -/
noncomputable def listMinD : List ℝ → ℝ
  | [] => 0
  | x :: xs => xs.foldl min x

/-- Maximum of a nonempty real list (`Math.max(...values)`); 0 on the empty
list, which every call site rules out by a length guard. -/
noncomputable def listMaxD : List ℝ → ℝ
  | [] => 0
  | x :: xs => xs.foldl max x

/-- Modelled from the spec: `bestBid` lives in `OrderbookManager.ts`, which is
not among the repository files under src/; the spec defines best-bid as the
maximum bid price key, absent when the bid side is empty. -/
noncomputable def bestBid (ob : OrderbookState) : Option ℝ :=
  listMax (ob.bids.map Prod.fst)

/-- Modelled from the spec: `bestAsk` lives in `OrderbookManager.ts`, which is
not among the repository files under src/; the spec defines best-ask as the
minimum ask price key, absent when the ask side is empty. -/
noncomputable def bestAsk (ob : OrderbookState) : Option ℝ :=
  listMin (ob.asks.map Prod.fst)

/-- obiWeighted local of computeMetrics: normalized top-10 imbalance, 0 when
the denominator is not above EPSILON. -/
noncomputable def obiWeightedOf (ob : OrderbookState) : ℝ :=
  let bidVol10 := calcVolume ob.bids 10 false
  let askVol10 := calcVolume ob.asks 10 true
  if EPSILON < bidVol10 + askVol10 then (bidVol10 - askVol10) / (bidVol10 + askVol10) else 0

/-- obiDeep local of computeMetrics: normalized top-50 imbalance. -/
noncomputable def obiDeepOf (ob : OrderbookState) : ℝ :=
  let bidVol50 := calcVolume ob.bids 50 false
  let askVol50 := calcVolume ob.asks 50 true
  if EPSILON < bidVol50 + askVol50 then (bidVol50 - askVol50) / (bidVol50 + askVol50) else 0

/-- obiDivergence local of computeMetrics. -/
noncomputable def obiDivergenceOf (ob : OrderbookState) : ℝ :=
  obiWeightedOf ob - obiDeepOf ob

/-- Reference timestamp of computeMetrics: the latest trade timestamp, or the
wall clock (passed in as `now`) when the window is empty. -/
def refTimeOf (s : CalcState) (now : ℤ) : ℤ :=
  match s.trades.getLast? with
  | some t => t.timestamp
  | none => now

/-- delta1s local of computeMetrics: net signed volume over window entries of
the trailing second relative to the reference time. -/
def delta1sOf (s : CalcState) (now : ℤ) : ℝ :=
  ((s.trades.filter (fun x => refTimeOf s now - 1000 ≤ x.timestamp)).map signedQty).sum

/-- delta5s local of computeMetrics: net signed volume over the trailing five
seconds relative to the reference time. -/
def delta5sOf (s : CalcState) (now : ℤ) : ℝ :=
  ((s.trades.filter (fun x => refTimeOf s now - 5000 ≤ x.timestamp)).map signedQty).sum

/-- deltaZ local of computeMetrics: z-score of delta1s against deltaHistory
when the history has at least 5 entries, guarded against a standard deviation
not above EPSILON. -/
noncomputable def deltaZOf (s : CalcState) (now : ℤ) : ℝ :=
  if 5 ≤ s.deltaHistory.length then
    let mean := s.deltaHistory.sum / (s.deltaHistory.length : ℝ)
    let variance :=
      (s.deltaHistory.map (fun v => (v - mean) ^ 2)).sum / (s.deltaHistory.length : ℝ)
    let std := Real.sqrt variance
    if EPSILON < std then (delta1sOf s now - mean) / std else 0
  else 0

/-- cvdSlope local of computeMetrics. -/
noncomputable def cvdSlopeOf (s : CalcState) : ℝ :=
  calculateSlope s.cvdHistory

/-- vwap local of computeMetrics: `totalNotional / totalVolume` when the
volume is above EPSILON, else 0. -/
noncomputable def vwapOf (s : CalcState) : ℝ :=
  if EPSILON < s.totalVolume then s.totalNotional / s.totalVolume else 0

/-- bestBidPrice local of computeMetrics (`bestBid(ob) ?? 0`). -/
noncomputable def bestBidPriceOf (ob : OrderbookState) : ℝ :=
  (bestBid ob).getD 0

/-- bestAskPrice local of computeMetrics (`bestAsk(ob) ?? 0`). -/
noncomputable def bestAskPriceOf (ob : OrderbookState) : ℝ :=
  (bestAsk ob).getD 0

/-- spread local of computeMetrics. -/
noncomputable def spreadOf (ob : OrderbookState) : ℝ :=
  bestAskPriceOf ob - bestBidPriceOf ob

/-- midPrice local of computeMetrics. -/
noncomputable def midPriceOf (ob : OrderbookState) : ℝ :=
  (bestBidPriceOf ob + bestAskPriceOf ob) / 2

/-- priceChange local of computeMetrics: fractional mid-price change against
the previous pass, 0 unless the stored last mid-price is above EPSILON. -/
noncomputable def priceChangeOf (s : CalcState) (ob : OrderbookState) : ℝ :=
  if EPSILON < s.lastMidPrice then (midPriceOf ob - s.lastMidPrice) / s.lastMidPrice else 0

/-- Total quantity of a trade list. -/
def sumQ (l : List LegacyTrade) : ℝ :=
  (l.map (fun t => t.quantity)).sum

/-- calculateSweepFadeScore of `LegacyCalculator`: partition the last 30
trades by price deviation against half the spread into sweep and fade
buckets, combine the net direction of each bucket weighted by volume share
(fade at 0.3), and clamp to [-1, 1]. -/
noncomputable def calculateSweepFadeScore (trades : List LegacyTrade) (spread midPrice : ℝ) : ℝ :=
  if trades.length < 10 then 0
  else if spread < EPSILON then 0
  else
    let recentTrades := takeLast SWEEP_DETECTION_WINDOW trades
    let sweepBuyVol :=
      sumQ (recentTrades.filter (fun t => spread * 0.5 < |t.price - midPrice| ∧ t.side = Side.buy))
    let sweepSellVol :=
      sumQ (recentTrades.filter (fun t => spread * 0.5 < |t.price - midPrice| ∧ t.side = Side.sell))
    let fadeBuyVol :=
      sumQ (recentTrades.filter (fun t => ¬spread * 0.5 < |t.price - midPrice| ∧ t.side = Side.buy))
    let fadeSellVol :=
      sumQ (recentTrades.filter (fun t => ¬spread * 0.5 < |t.price - midPrice| ∧ t.side = Side.sell))
    let totalSweep := sweepBuyVol + sweepSellVol
    let totalFade := fadeBuyVol + fadeSellVol
    let totalVol := totalSweep + totalFade
    if totalVol < EPSILON then 0
    else
      let sweepNet := if 0 < totalSweep then (sweepBuyVol - sweepSellVol) / totalSweep else 0
      let fadeNet := if 0 < totalFade then (fadeBuyVol - fadeSellVol) / totalFade else 0
      let sweepWeight := totalSweep / totalVol
      let score := sweepNet * sweepWeight + fadeNet * (1 - sweepWeight) * 0.3
      max (-1) (min 1 score)

/-- calculateBreakoutScore of `LegacyCalculator`: OLS slope of the last 15
prices normalized by ATR, scaled by delta-sign agreement (1 or 0.5) and
volume confirmation (1 or 0.7), clamped to [-1, 1]. -/
noncomputable def calculateBreakoutScore (s : CalcState) (delta1s : ℝ) : ℝ :=
  if s.trades.length < 5 then 0
  else
    let recentPrices := (takeLast BREAKOUT_WINDOW s.trades).map (fun t => t.price)
    if recentPrices.length < 2 then 0
    else
      let slope := calculateSlope recentPrices
      let atr := calculateATR s.trades
      if atr < EPSILON then 0
      else
        let normalizedSlope := slope / atr
        let deltaConfirm := if mathSign delta1s = mathSign slope then (1 : ℝ) else 0.5
        let recentVol := sumQ (takeLast 5 s.trades)
        let avgVol :=
          if 0 < s.volumeHistory.length then
            s.volumeHistory.sum / (s.volumeHistory.length : ℝ)
          else recentVol / 5
        let volumeConfirm := if avgVol * 0.8 < recentVol then (1 : ℝ) else 0.7
        max (-1) (min 1 (normalizedSlope * deltaConfirm * volumeConfirm))

/-- Simple returns of consecutive prices, the `returns` array of
calculateRegimeWeight. -/
noncomputable def returnsOf : List ℝ → List ℝ
  | a :: b :: rest => (b - a) / a :: returnsOf (b :: rest)
  | _ => []

/-- Current volatility of calculateRegimeWeight: standard deviation of the
simple returns of the last 30 trade prices. -/
noncomputable def currentVolOf (s : CalcState) : ℝ :=
  calculateStdDev (returnsOf ((takeLast 30 s.trades).map (fun t => t.price)))

/-- calculateRegimeWeight of `LegacyCalculator`.  The source mutates
`volatilityHistory`; here the function returns the score together with the
updated history. -/
noncomputable def calculateRegimeWeight (s : CalcState) : ℝ × List ℝ :=
  if s.trades.length < 5 then (0, s.volatilityHistory)
  else
    let recentPrices := (takeLast 30 s.trades).map (fun t => t.price)
    if recentPrices.length < 2 then (0, s.volatilityHistory)
    else
      let returns := returnsOf recentPrices
      if returns.length = 0 then (0, s.volatilityHistory)
      else
        let currentVol := calculateStdDev returns
        let newHist := pushCapped s.volatilityHistory currentVol VOLATILITY_HISTORY_SIZE
        let maxVol := newHist.foldl max (currentVol * 1.1)
        if maxVol < EPSILON then (0, newHist)
        else (min 1 (currentVol / maxVol), newHist)

/-- calculateAbsorptionScore of `LegacyCalculator`: volume intensity times
price stability times direction confidence times delta stability, boosted by
1.3 when intensity and stability are both high, clamped to at most 1. -/
noncomputable def calculateAbsorptionScore (s : CalcState) (delta1s : ℝ) : ℝ :=
  if s.trades.length < 5 then 0
  else
    let window := takeLast ABSORPTION_WINDOW s.trades
    if window.length < 5 then 0
    else
      let prices := window.map (fun t => t.price)
      let quantities := window.map (fun t => t.quantity)
      let totalVol := quantities.sum
      let avgVol := totalVol / (window.length : ℝ)
      let recentVol := (takeLast 10 quantities).sum / ((min 10 quantities.length : ℕ) : ℝ)
      let volumeIntensity := if EPSILON < avgVol then min 2 (recentVol / avgVol) / 2 else 0
      let avgPrice := prices.sum / (prices.length : ℝ)
      let priceRange := if EPSILON < avgPrice then (listMaxD prices - listMinD prices) / avgPrice else 0
      let priceStability := max 0 (1 - priceRange * 100)
      let recentTrades := takeLast 10 window
      let buyCount := (recentTrades.filter (fun t => t.side = Side.buy)).length
      let sellCount := recentTrades.length - buyCount
      let dominance := |(buyCount : ℝ) - (sellCount : ℝ)| / (recentTrades.length : ℝ)
      let deltaStability :=
        if 5 ≤ s.deltaHistory.length then
          1 - min 1 (calculateStdDev (takeLast 5 s.deltaHistory) / (|delta1s| + EPSILON))
        else 0.5
      let base := volumeIntensity * priceStability * (0.5 + dominance * 0.5) * (0.7 + deltaStability * 0.3)
      let boosted := if 0.5 < volumeIntensity ∧ 0.8 < priceStability then base * 1.3 else base
      min 1 boosted

/-- Exhaustion condition 1 of calculateExhaustion: CVD sign opposes the
fractional price change beyond the 0.05 threshold. -/
@[reducible] def exhaustionCond1 (cvd priceChange : ℝ) : Prop :=
  (0 < cvd ∧ priceChange < -0.05) ∨ (cvd < 0 ∧ 0.05 < priceChange)

/-- Exhaustion condition 2 of calculateExhaustion: the last two deltaHistory
entries carry distinct, both nonzero, signs. -/
@[reducible] noncomputable def exhaustionCond2 (dh : List ℝ) : Prop :=
  2 ≤ dh.length ∧
    mathSign (lastD dh) ≠ mathSign (lastD dh.dropLast) ∧
    mathSign (lastD dh) ≠ 0 ∧ mathSign (lastD dh.dropLast) ≠ 0

/-- Exhaustion condition 3 of calculateExhaustion: the CVD slope is flat. -/
@[reducible] def exhaustionCond3 (cvdSlope : ℝ) : Prop :=
  |cvdSlope| < 5

/-- Exhaustion condition 4 of calculateExhaustion: with at least 20
volumeHistory entries, the last-10 sum is below 0.8 times the prior-10 sum. -/
@[reducible] def exhaustionCond4 (vh : List ℝ) : Prop :=
  20 ≤ vh.length ∧ (takeLast 10 vh).sum < (takeLast 10 (dropLastN 10 vh)).sum * 0.8

/-- Consecutive magnitude check of exhaustion condition 5: each entry is at
most 1.1 times the previous magnitude. -/
def deltaNonIncreasing : List ℝ → Prop
  | a :: b :: rest => |b| ≤ |a| * 1.1 ∧ deltaNonIncreasing (b :: rest)
  | _ => True

/-- Exhaustion condition 5 of calculateExhaustion: with at least 5
deltaHistory entries, the magnitudes of the last 5 are non-increasing within
10 percent tolerance. -/
@[reducible] def exhaustionCond5 (dh : List ℝ) : Prop :=
  5 ≤ dh.length ∧ deltaNonIncreasing (takeLast 5 dh)

noncomputable instance instDecDeltaNonIncreasing : (l : List ℝ) → Decidable (deltaNonIncreasing l)
  | [] => isTrue trivial
  | [_] => isTrue trivial
  | a :: b :: rest =>
    haveI : Decidable (deltaNonIncreasing (b :: rest)) := instDecDeltaNonIncreasing (b :: rest)
    inferInstanceAs (Decidable (|b| ≤ |a| * 1.1 ∧ deltaNonIncreasing (b :: rest)))

/-- Number of satisfied exhaustion conditions, the `exhaustionCount` counter
of calculateExhaustion. -/
noncomputable def exhaustionCount (s : CalcState) (cvd priceChange cvdSlope : ℝ) : ℕ :=
  (if exhaustionCond1 cvd priceChange then 1 else 0) +
  (if exhaustionCond2 s.deltaHistory then 1 else 0) +
  (if exhaustionCond3 cvdSlope then 1 else 0) +
  (if exhaustionCond4 s.volumeHistory then 1 else 0) +
  (if exhaustionCond5 s.deltaHistory then 1 else 0)

/-- calculateExhaustion of `LegacyCalculator`: true when at least 3 of the 5
conditions hold.  The source also receives `deltaZ`, a dead parameter it
never reads, omitted here. -/
noncomputable def calculateExhaustion (s : CalcState) (cvd priceChange cvdSlope : ℝ) : Bool :=
  decide (3 ≤ exhaustionCount s cvd priceChange cvdSlope)

/-- Number of satisfied buy conditions of the signal composer. -/
noncomputable def buyConditionCount (s : CalcState) (ob : OrderbookState) (now : ℤ) : ℕ :=
  (if 0.2 < obiWeightedOf ob then 1 else 0) +
  (if 0.8 < deltaZOf s now then 1 else 0) +
  (if 0 < cvdSlopeOf s then 1 else 0) +
  (if 0.3 < calculateSweepFadeScore s.trades (spreadOf ob) (midPriceOf ob) then 1 else 0) +
  (if 0.2 < calculateBreakoutScore s (delta1sOf s now) then 1 else 0)

/-- Number of satisfied sell conditions of the signal composer. -/
noncomputable def sellConditionCount (s : CalcState) (ob : OrderbookState) (now : ℤ) : ℕ :=
  (if obiWeightedOf ob < -0.2 then 1 else 0) +
  (if deltaZOf s now < -0.8 then 1 else 0) +
  (if cvdSlopeOf s < 0 then 1 else 0) +
  (if calculateSweepFadeScore s.trades (spreadOf ob) (midPriceOf ob) < -0.3 then 1 else 0) +
  (if calculateBreakoutScore s (delta1sOf s now) < -0.2 then 1 else 0)

/-- Output record of computeMetrics. -/
structure MetricsSnapshot where
  price : ℝ
  obiWeighted : ℝ
  obiDeep : ℝ
  obiDivergence : ℝ
  delta1s : ℝ
  delta5s : ℝ
  deltaZ : ℝ
  cvdSession : ℝ
  cvdSlope : ℝ
  vwap : ℝ
  totalVolume : ℝ
  totalNotional : ℝ
  absorptionScore : ℝ
  sweepFadeScore : ℝ
  breakoutScore : ℝ
  regimeWeight : ℝ
  tradeCount : ℕ
  tradeSignal : ℤ
  exhaustion : Bool

/-- computeMetrics of `LegacyCalculator`.  The source mutates
`volatilityHistory` (inside calculateRegimeWeight) and `lastMidPrice`; here
the pass returns the snapshot together with the updated state.  The `now`
argument stands for the `Date.now()` fallback used when the window is
empty. -/
noncomputable def computeMetrics (s : CalcState) (ob : OrderbookState) (now : ℤ) :
    MetricsSnapshot × CalcState :=
  let exh := calculateExhaustion s s.cvdSession (priceChangeOf s ob) (cvdSlopeOf s)
  let signal : ℤ :=
    if 3 ≤ buyConditionCount s ob now ∧ exh = false then 1
    else if 3 ≤ sellConditionCount s ob now ∧ exh = false then -1
    else 0
  ({ price := midPriceOf ob
     obiWeighted := obiWeightedOf ob
     obiDeep := obiDeepOf ob
     obiDivergence := obiDivergenceOf ob
     delta1s := delta1sOf s now
     delta5s := delta5sOf s now
     deltaZ := deltaZOf s now
     cvdSession := s.cvdSession
     cvdSlope := cvdSlopeOf s
     vwap := vwapOf s
     totalVolume := s.totalVolume
     totalNotional := s.totalNotional
     absorptionScore := calculateAbsorptionScore s (delta1sOf s now)
     sweepFadeScore := calculateSweepFadeScore s.trades (spreadOf ob) (midPriceOf ob)
     breakoutScore := calculateBreakoutScore s (delta1sOf s now)
     regimeWeight := (calculateRegimeWeight s).1
     tradeCount := s.trades.length
     tradeSignal := signal
     exhaustion := exh },
   { s with
     volatilityHistory := (calculateRegimeWeight s).2
     lastMidPrice := midPriceOf ob })

/-- Snapshot of a metrics pass, the first component of computeMetrics. -/
noncomputable def metricsOf (s : CalcState) (ob : OrderbookState) (now : ℤ) : MetricsSnapshot :=
  (computeMetrics s ob now).1

/-- State of a metrics pass, the second component of computeMetrics. -/
noncomputable def newStateOf (s : CalcState) (ob : OrderbookState) (now : ℤ) : CalcState :=
  (computeMetrics s ob now).2

/-- Range conditions the spec declares for a MetricsSnapshot. -/
def rangesOK (m : MetricsSnapshot) : Prop :=
  -1 ≤ m.obiWeighted ∧ m.obiWeighted ≤ 1 ∧
  -1 ≤ m.obiDeep ∧ m.obiDeep ≤ 1 ∧
  -2 ≤ m.obiDivergence ∧ m.obiDivergence ≤ 2 ∧
  -1 ≤ m.sweepFadeScore ∧ m.sweepFadeScore ≤ 1 ∧
  -1 ≤ m.breakoutScore ∧ m.breakoutScore ≤ 1 ∧
  0 ≤ m.regimeWeight ∧ m.regimeWeight ≤ 1 ∧
  0 ≤ m.absorptionScore ∧ m.absorptionScore ≤ 1 ∧
  (m.tradeSignal = -1 ∨ m.tradeSignal = 0 ∨ m.tradeSignal = 1)

/-- Buy-condition count read off a published snapshot, following the
wording of the spec for the signal composer. -/
noncomputable def snapshotBuyCount (m : MetricsSnapshot) : ℕ :=
  (if 0.2 < m.obiWeighted then 1 else 0) +
  (if 0.8 < m.deltaZ then 1 else 0) +
  (if 0 < m.cvdSlope then 1 else 0) +
  (if 0.3 < m.sweepFadeScore then 1 else 0) +
  (if 0.2 < m.breakoutScore then 1 else 0)

/-- Sell-condition count read off a published snapshot, following the
wording of the spec for the signal composer. -/
noncomputable def snapshotSellCount (m : MetricsSnapshot) : ℕ :=
  (if m.obiWeighted < -0.2 then 1 else 0) +
  (if m.deltaZ < -0.8 then 1 else 0) +
  (if m.cvdSlope < 0 then 1 else 0) +
  (if m.sweepFadeScore < -0.3 then 1 else 0) +
  (if m.breakoutScore < -0.2 then 1 else 0)

/-- Condition (a) of the exhaustion claim, with the threshold on the
fractional price change left as a parameter: the claim reads the threshold
as 0.0005 (0.05 percent), the code compares against 0.05. -/
@[reducible] def specCondA (thr cvd priceChange : ℝ) : Prop :=
  (0 < cvd ∧ priceChange < -thr) ∨ (cvd < 0 ∧ thr < priceChange)

/-- Condition (b) of the exhaustion claim, in the words of the spec: the
last two deltaHistory entries have opposite nonzero signs. -/
@[reducible] def specCondB (dh : List ℝ) : Prop :=
  2 ≤ dh.length ∧
    ((0 < lastD dh ∧ lastD dh.dropLast < 0) ∨ (lastD dh < 0 ∧ 0 < lastD dh.dropLast))

/-- Condition (d) of the exhaustion claim, in the words of the spec: at
least 20 volumeHistory entries and the last-10 sum below 0.8 times the
prior-10 sum. -/
@[reducible] def specCondD (vh : List ℝ) : Prop :=
  20 ≤ vh.length ∧ (takeLast 10 vh).sum < 0.8 * (takeLast 10 (dropLastN 10 vh)).sum

/-- Number of exhaustion conditions of the claim satisfied at a pass, with
the condition (a) threshold as a parameter.  Conditions (c) and (e) repeat
the code verbatim in the spec, so they are shared. -/
noncomputable def specExhaustionCount (thr : ℝ) (s : CalcState) (ob : OrderbookState) : ℕ :=
  (if specCondA thr s.cvdSession (priceChangeOf s ob) then 1 else 0) +
  (if specCondB s.deltaHistory then 1 else 0) +
  (if exhaustionCond3 (cvdSlopeOf s) then 1 else 0) +
  (if specCondD s.volumeHistory then 1 else 0) +
  (if exhaustionCond5 s.deltaHistory then 1 else 0)

/-- Operations of the calculator observable from outside: ingest a trade, or
run a metrics pass against an order-book snapshot. -/
inductive CalcOp
  | ingest (t : LegacyTrade)
  | pass (ob : OrderbookState) (now : ℤ)

/-- Run a sequence of calculator operations from a state. -/
noncomputable def runOps (s : CalcState) : List CalcOp → CalcState
  | [] => s
  | .ingest t :: rest => runOps (addTrade s t) rest
  | .pass ob now :: rest => runOps (computeMetrics s ob now).2 rest

/-- Timestamps of the ingested trades are non-decreasing along the operation
list, continuing from an optional previous timestamp. -/
def opsMonoFrom : Option ℤ → List CalcOp → Prop
  | _, [] => True
  | prev, .ingest t :: rest =>
    (∀ p, prev = some p → p ≤ t.timestamp) ∧ opsMonoFrom (some t.timestamp) rest
  | prev, .pass _ _ :: rest => opsMonoFrom prev rest

/-- Timestamp of the latest trade ingested by the operation list, continuing
from an optional previous timestamp. -/
def latestIngestFrom : Option ℤ → List CalcOp → Option ℤ
  | prev, [] => prev
  | _, .ingest t :: rest => latestIngestFrom (some t.timestamp) rest
  | prev, .pass _ _ :: rest => latestIngestFrom prev rest

/-- Timestamp of the last entry of the trade window, if any. -/
def lastTs? (s : CalcState) : Option ℤ :=
  s.trades.getLast?.map (fun t => t.timestamp)

/-- Bounded-history and window invariant of the calculator: capacity bounds
on the four histories, the window sorted by timestamp, and no window entry
more than 10,000 ms older than the last window entry. -/
def CalcInv (s : CalcState) : Prop :=
  s.deltaHistory.length ≤ 60 ∧ s.cvdHistory.length ≤ 60 ∧
  s.volumeHistory.length ≤ 100 ∧ s.volatilityHistory.length ≤ 3600 ∧
  s.trades.Pairwise (fun a b => a.timestamp ≤ b.timestamp) ∧
  ∀ x ∈ s.trades, ∀ u, s.trades.getLast? = some u → u.timestamp - 10000 ≤ x.timestamp

/-- State of an OpenInterestMonitor instance. -/
structure OIState where
  currentOI : ℝ
  previousOI : ℝ
  oiHistory : List (ℝ × ℤ)
  lastFetchTime : ℤ

/-- State of a freshly constructed OpenInterestMonitor. -/
def initOIState : OIState :=
  { currentOI := 0, previousOI := 0, oiHistory := [], lastFetchTime := 0 }

/-- FETCH_INTERVAL_MS constant of OpenInterestMonitor. -/
def FETCH_INTERVAL_MS : ℤ := 60000

/-- Outcome of the external open-interest fetch: a non-ok HTTP response, a
thrown network error, or a payload whose openInterest field parses to the
given number (`payload none` models a field `parseFloat` turns into NaN). -/
inductive FetchOutcome
  | httpError
  | thrown
  | payload (v : Option ℝ)

/-- updateOpenInterest of OpenInterestMonitor.  `now` stands for
`Date.now()` and the fetch outcome is passed explicitly; the Boolean result
records whether the external fetch was invoked.  Mirrors the source: an
early return when rate-limited, an early return (before the
`lastFetchTime` update) on a non-ok response, state untouched on a thrown
error, and on a parsed value the previous/current rotation plus a capped
history push; `lastFetchTime` is assigned whenever the try block reaches its
end, hence also when the payload does not parse. -/
noncomputable def updateOpenInterest (s : OIState) (now : ℤ) (f : FetchOutcome) :
    OIState × Bool :=
  if now - s.lastFetchTime < FETCH_INTERVAL_MS ∧ 0 < s.currentOI then (s, false)
  else
    match f with
    | .httpError => (s, true)
    | .thrown => (s, true)
    | .payload none => ({ s with lastFetchTime := now }, true)
    | .payload (some v) =>
      ({ currentOI := v
         previousOI := if 0 < s.currentOI then s.currentOI else v
         oiHistory := pushCapped s.oiHistory (v, now) 60
         lastFetchTime := now }, true)

/-- Trend label of the open-interest snapshot. -/
inductive OITrend
  | up
  | down
  | flat
deriving DecidableEq

/-- Signal label of the open-interest snapshot. -/
inductive OISignal
  | bullish
  | bearish
  | neutral
deriving DecidableEq

/-- Output record of getMetrics of OpenInterestMonitor. -/
structure OIMetrics where
  openInterest : ℝ
  delta : ℝ
  deltaPercent : ℝ
  trend : OITrend
  signal : OISignal
  volatility : ℝ
  strength : ℝ
  lastUpdate : ℤ

/-- calculateOIVolatility of OpenInterestMonitor: normalized standard
deviation of the last 10 history values, clamped to at most 1. -/
noncomputable def calculateOIVolatility (s : OIState) : ℝ :=
  if s.oiHistory.length < 2 then 0
  else
    let recent := (takeLast 10 s.oiHistory).map Prod.fst
    let mean := recent.sum / (recent.length : ℝ)
    let variance := (recent.map (fun v => (v - mean) ^ 2)).sum / (recent.length : ℝ)
    let stdDev := Real.sqrt variance
    let maxOI := recent.foldl max 1
    min 1 (stdDev / maxOI * 1000)

/-- getMetrics of OpenInterestMonitor; `now` stands for the `Date.now()`
stored into `lastUpdate`. -/
noncomputable def getMetrics (s : OIState) (now : ℤ) : OIMetrics :=
  let delta := s.currentOI - s.previousOI
  let deltaPercent := if 0 < s.previousOI then delta / s.previousOI * 100 else 0
  let trend : OITrend :=
    if s.currentOI * 0.0005 < |delta| then (if 0 < delta then .up else .down) else .flat
  let signal : OISignal :=
    if trend = .up ∧ 0.1 < deltaPercent then .bullish
    else if trend = .down ∧ deltaPercent < -0.1 then .bearish
    else .neutral
  { openInterest := s.currentOI
    delta := delta
    deltaPercent := deltaPercent
    trend := trend
    signal := signal
    volatility := calculateOIVolatility s
    strength := max (-1) (min 1 (deltaPercent * 10))
    lastUpdate := now }

/-- Run a sequence of refresh calls, each with its wall-clock time and fetch
outcome, from a tracker state. -/
noncomputable def runOIOps (s : OIState) : List (ℤ × FetchOutcome) → OIState
  | [] => s
  | (now, f) :: rest => runOIOps (updateOpenInterest s now f).1 rest

/-- Every fetched value along the refresh sequence is non-negative. -/
def oiNonNegOps (ops : List (ℤ × FetchOutcome)) : Prop :=
  ∀ p ∈ ops, ∀ v, p.2 = FetchOutcome.payload (some v) → 0 ≤ v

/-- Sign invariant of reachable tracker states: both stored values are
non-negative and the previous value can only be zero while the current one
is. -/
def OIInv (s : OIState) : Prop :=
  0 ≤ s.currentOI ∧ 0 ≤ s.previousOI ∧ (s.previousOI = 0 → s.currentOI = 0)

/-- Calculator state of the exhaustion counterexample: a positive session
CVD, a sign flip in the delta history, an empty CVD history (so the slope is
0) and a last mid-price of 1000. -/
def ceState : CalcState :=
  { trades := []
    deltaHistory := [1, -1]
    cvdHistory := []
    cvdSession := 1
    totalVolume := 0
    totalNotional := 0
    volatilityHistory := []
    volumeHistory := []
    lastMidPrice := 1000 }

/-- Order book of the exhaustion counterexample: best bid 998, best ask
1000, so the mid-price is 999 and the fractional price change against
`ceState` is -0.001. -/
def ceOb : OrderbookState :=
  { bids := [(998, 1)], asks := [(1000, 1)] }

/-- Tracker state of the rate-limit counterexample. -/
def ceOIState : OIState :=
  { currentOI := 5, previousOI := 5, oiHistory := [], lastFetchTime := 0 }

/-! ## Projection lemmas for the metrics pass -/

theorem metricsOf_vwap (s : CalcState) (ob : OrderbookState) (now : ℤ) :
    (metricsOf s ob now).vwap = vwapOf s := rfl

theorem metricsOf_obiWeighted (s : CalcState) (ob : OrderbookState) (now : ℤ) :
    (metricsOf s ob now).obiWeighted = obiWeightedOf ob := rfl

theorem metricsOf_obiDeep (s : CalcState) (ob : OrderbookState) (now : ℤ) :
    (metricsOf s ob now).obiDeep = obiDeepOf ob := rfl

theorem metricsOf_obiDivergence (s : CalcState) (ob : OrderbookState) (now : ℤ) :
    (metricsOf s ob now).obiDivergence = obiDivergenceOf ob := rfl

theorem metricsOf_sweepFadeScore (s : CalcState) (ob : OrderbookState) (now : ℤ) :
    (metricsOf s ob now).sweepFadeScore =
      calculateSweepFadeScore s.trades (spreadOf ob) (midPriceOf ob) := rfl

theorem metricsOf_breakoutScore (s : CalcState) (ob : OrderbookState) (now : ℤ) :
    (metricsOf s ob now).breakoutScore = calculateBreakoutScore s (delta1sOf s now) := rfl

theorem metricsOf_regimeWeight (s : CalcState) (ob : OrderbookState) (now : ℤ) :
    (metricsOf s ob now).regimeWeight = (calculateRegimeWeight s).1 := rfl

theorem metricsOf_absorptionScore (s : CalcState) (ob : OrderbookState) (now : ℤ) :
    (metricsOf s ob now).absorptionScore = calculateAbsorptionScore s (delta1sOf s now) := rfl

theorem metricsOf_exhaustion (s : CalcState) (ob : OrderbookState) (now : ℤ) :
    (metricsOf s ob now).exhaustion =
      calculateExhaustion s s.cvdSession (priceChangeOf s ob) (cvdSlopeOf s) := rfl

theorem metricsOf_tradeSignal (s : CalcState) (ob : OrderbookState) (now : ℤ) :
    (metricsOf s ob now).tradeSignal =
      (if 3 ≤ buyConditionCount s ob now ∧
            calculateExhaustion s s.cvdSession (priceChangeOf s ob) (cvdSlopeOf s) = false then (1 : ℤ)
       else if 3 ≤ sellConditionCount s ob now ∧
            calculateExhaustion s s.cvdSession (priceChangeOf s ob) (cvdSlopeOf s) = false then -1
       else 0) := rfl

/-! ## Basic lemmas about the bounded-FIFO push -/

theorem pushCapped_length_le {α : Type} (h : List α) (v : α) (cap : ℕ)
    (hl : h.length ≤ cap) : (pushCapped h v cap).length ≤ cap := by
  simp only [pushCapped]
  split_ifs with hc <;> simp_all

/-! ## Session accumulators under ingestion -/

theorem foldl_addTrade_totalVolume (ts : List LegacyTrade) (s : CalcState) :
    (ts.foldl addTrade s).totalVolume = s.totalVolume + (ts.map (fun t => t.quantity)).sum := by
  induction ts generalizing s with
  | nil => simp
  | cons t rest ih =>
    simp only [List.foldl_cons, List.map_cons, List.sum_cons, ih, addTrade]
    ring

theorem foldl_addTrade_totalNotional (ts : List LegacyTrade) (s : CalcState) :
    (ts.foldl addTrade s).totalNotional =
      s.totalNotional + (ts.map (fun t => t.price * t.quantity)).sum := by
  induction ts generalizing s with
  | nil => simp
  | cons t rest ih =>
    simp only [List.foldl_cons, List.map_cons, List.sum_cons, ih, addTrade]
    ring

/-- Claim C4: after ingesting any finite trade sequence, the vwap field of
the next snapshot equals the independently recomputed
`Σ(price·qty) / Σ(qty)` over every ingested trade (evicted ones included)
when `Σ(qty)` exceeds 1e-12, and 0 otherwise. -/
theorem C4_vwap_roundtrip (ts : List LegacyTrade) (ob : OrderbookState) (now : ℤ) :
    (metricsOf (ts.foldl addTrade initState) ob now).vwap =
      if EPSILON < (ts.map (fun t => t.quantity)).sum then
        (ts.map (fun t => t.price * t.quantity)).sum / (ts.map (fun t => t.quantity)).sum
      else 0 := by
  have hv := foldl_addTrade_totalVolume ts initState
  have hn := foldl_addTrade_totalNotional ts initState
  simp only [metricsOf_vwap, vwapOf]
  rw [hv, hn]
  simp [initState]

/-! ## Open-interest tracker: rate limiting and failure atomicity -/

/-- Claim C7 (amended): a refresh call made while `currentOI > 0` and less
than 60,000 ms after `lastFetchTime` is a no-op — the state is returned
unchanged and the external fetch collaborator is not invoked.  (The original
claim also asserted that of any two calls within 60,000 ms of each other the
second is a no-op; that fails when the first call did not update
`lastFetchTime`, see the counterexample.) -/
theorem C7_refresh_rate_limited (s : OIState) (now : ℤ) (f : FetchOutcome)
    (h1 : 0 < s.currentOI) (h2 : now - s.lastFetchTime < FETCH_INTERVAL_MS) :
    updateOpenInterest s now f = (s, false) := by
  unfold updateOpenInterest
  rw [if_pos ⟨h2, h1⟩]

theorem C7_refresh_rate_limited_witness :
    (0 : ℝ) < ceOIState.currentOI ∧
      (59999 : ℤ) - ceOIState.lastFetchTime < FETCH_INTERVAL_MS ∧
      updateOpenInterest ceOIState 59999 FetchOutcome.httpError = (ceOIState, false) :=
  ⟨by norm_num [ceOIState], by norm_num [ceOIState, FETCH_INTERVAL_MS],
    C7_refresh_rate_limited ceOIState 59999 FetchOutcome.httpError
      (by norm_num [ceOIState]) (by norm_num [ceOIState, FETCH_INTERVAL_MS])⟩

/-- Claim C7 counterexample: two refresh calls 59,999 ms apart with
`currentOI > 0` throughout, where the second call is not a no-op.  The first
call (at 59,999) is rate-limited and therefore leaves `lastFetchTime` at 0,
so the second call (at 119,998) is outside the fetch interval, invokes the
fetch and overwrites the state. -/
theorem C7_second_call_counterexample :
    (119998 : ℤ) - 59999 < 60000 ∧
      0 < ((updateOpenInterest ceOIState 59999 FetchOutcome.httpError).1).currentOI ∧
      (updateOpenInterest (updateOpenInterest ceOIState 59999 FetchOutcome.httpError).1 119998
          (FetchOutcome.payload (some 7))).1.currentOI ≠
        ((updateOpenInterest ceOIState 59999 FetchOutcome.httpError).1).currentOI := by
  have h1 : updateOpenInterest ceOIState 59999 FetchOutcome.httpError = (ceOIState, false) := by
    unfold updateOpenInterest
    rw [if_pos]
    constructor
    · norm_num [ceOIState, FETCH_INTERVAL_MS]
    · norm_num [ceOIState]
  rw [h1]
  refine ⟨by norm_num, by norm_num [ceOIState], ?_⟩
  have h2 : ¬((119998 : ℤ) - ceOIState.lastFetchTime < FETCH_INTERVAL_MS ∧
      (0 : ℝ) < ceOIState.currentOI) := by
    intro h
    have := h.1
    norm_num [ceOIState, FETCH_INTERVAL_MS] at this
  unfold updateOpenInterest
  rw [if_neg h2]
  norm_num [ceOIState]

/-- Claim C8 (amended): when the external fetch fails, the failure is not
fatal and the tracker values are preserved — on an error response or a
thrown error the whole state (including `lastFetchTime`) is unchanged; on a
payload that does not parse to a number, `currentOI`, `previousOI` and the
history FIFO are unchanged, but `lastFetchTime` is advanced to the call time
whenever the call was not rate-limited (see the counterexample). -/
theorem C8_fetch_failure_state (s : OIState) (now : ℤ) :
    (updateOpenInterest s now FetchOutcome.httpError).1 = s ∧
      (updateOpenInterest s now FetchOutcome.thrown).1 = s ∧
      (updateOpenInterest s now (FetchOutcome.payload none)).1.currentOI = s.currentOI ∧
      (updateOpenInterest s now (FetchOutcome.payload none)).1.previousOI = s.previousOI ∧
      (updateOpenInterest s now (FetchOutcome.payload none)).1.oiHistory = s.oiHistory := by
  unfold updateOpenInterest
  split_ifs <;> simp

/-! ## Frame effect of a metrics pass -/

theorem returnsOf_length : ∀ l : List ℝ, (returnsOf l).length = l.length - 1
  | [] => rfl
  | [_] => rfl
  | a :: b :: rest => by
    have ih := returnsOf_length (b :: rest)
    simp [returnsOf] at ih ⊢
    omega

theorem regime_snd (s : CalcState) :
    (calculateRegimeWeight s).2 =
      if 5 ≤ s.trades.length then pushCapped s.volatilityHistory (currentVolOf s) 3600
      else s.volatilityHistory := by
  by_cases h5 : s.trades.length < 5
  · simp only [calculateRegimeWeight]
    rw [if_pos h5, if_neg (by omega)]
  · have h5' : 5 ≤ s.trades.length := by omega
    have hlen : ((takeLast 30 s.trades).map (fun t => t.price)).length =
        s.trades.length - (s.trades.length - 30) := by
      simp [takeLast]
    simp only [calculateRegimeWeight]
    rw [if_neg h5, if_neg (by rw [hlen]; omega),
      if_neg (by rw [returnsOf_length, hlen]; omega), if_pos h5']
    simp only [currentVolOf, VOLATILITY_HISTORY_SIZE]
    split_ifs <;> rfl

/-- Claim C10: a metrics pass mutates at most `volatilityHistory` (a single
capped append of the current volatility, exactly when the window holds at
least 5 trades) and `lastMidPrice` (set to the mid-price of the supplied
book, which is 0 when both sides are empty); the trade window, the three
other histories and the session accumulators are untouched. -/
theorem C10_compute_frame (s : CalcState) (ob : OrderbookState) (now : ℤ) :
    (newStateOf s ob now).trades = s.trades ∧
      (newStateOf s ob now).deltaHistory = s.deltaHistory ∧
      (newStateOf s ob now).cvdHistory = s.cvdHistory ∧
      (newStateOf s ob now).volumeHistory = s.volumeHistory ∧
      (newStateOf s ob now).cvdSession = s.cvdSession ∧
      (newStateOf s ob now).totalVolume = s.totalVolume ∧
      (newStateOf s ob now).totalNotional = s.totalNotional ∧
      (newStateOf s ob now).lastMidPrice = midPriceOf ob ∧
      (newStateOf s ob now).volatilityHistory =
        (if 5 ≤ s.trades.length then pushCapped s.volatilityHistory (currentVolOf s) 3600
         else s.volatilityHistory) := by
  refine ⟨rfl, rfl, rfl, rfl, rfl, rfl, rfl, rfl, ?_⟩
  exact regime_snd s

/-- Claim C8 counterexample: a refresh whose payload does not parse to a
number changes `lastFetchTime` (from 0 to 5), so the tracker state is not
left entirely unchanged on this failure. -/
theorem C8_nan_payload_counterexample :
    (updateOpenInterest initOIState 5 (FetchOutcome.payload none)).1.lastFetchTime ≠
      initOIState.lastFetchTime := by
  have h2 : ¬((5 : ℤ) - initOIState.lastFetchTime < FETCH_INTERVAL_MS ∧
      (0 : ℝ) < initOIState.currentOI) := by
    intro h
    have := h.2
    norm_num [initOIState] at this
  unfold updateOpenInterest
  rw [if_neg h2]
  norm_num [initOIState]

/-! ## Signal composer -/

/-- Claim C3: the trade signal is +1 exactly when at least 3 buy conditions
hold and exhaustion is false; otherwise -1 exactly when at least 3 sell
conditions hold and exhaustion is false; otherwise 0.  In particular an
exhausted pass always publishes signal 0. -/
theorem C3_trade_signal (s : CalcState) (ob : OrderbookState) (now : ℤ) :
    ((metricsOf s ob now).tradeSignal = 1 ↔
        3 ≤ snapshotBuyCount (metricsOf s ob now) ∧ (metricsOf s ob now).exhaustion = false) ∧
      ((metricsOf s ob now).tradeSignal = -1 ↔
        ¬(3 ≤ snapshotBuyCount (metricsOf s ob now) ∧ (metricsOf s ob now).exhaustion = false) ∧
          3 ≤ snapshotSellCount (metricsOf s ob now) ∧ (metricsOf s ob now).exhaustion = false) ∧
      ((metricsOf s ob now).tradeSignal = 0 ↔
        ¬(3 ≤ snapshotBuyCount (metricsOf s ob now) ∧ (metricsOf s ob now).exhaustion = false) ∧
          ¬(3 ≤ snapshotSellCount (metricsOf s ob now) ∧ (metricsOf s ob now).exhaustion = false)) ∧
      ((metricsOf s ob now).exhaustion = true → (metricsOf s ob now).tradeSignal = 0) := by
  have hbc : snapshotBuyCount (metricsOf s ob now) = buyConditionCount s ob now := rfl
  have hsc : snapshotSellCount (metricsOf s ob now) = sellConditionCount s ob now := rfl
  rw [hbc, hsc, metricsOf_tradeSignal, metricsOf_exhaustion]
  set E := calculateExhaustion s s.cvdSession (priceChangeOf s ob) (cvdSlopeOf s) with hE
  set bc := buyConditionCount s ob now with hbc2
  set sc := sellConditionCount s ob now with hsc2
  by_cases h1 : 3 ≤ bc ∧ E = false
  · rw [if_pos h1]
    refine ⟨by simp [h1], ?_, ?_, ?_⟩
    · constructor
      · intro h; norm_num at h
      · rintro ⟨hn, _⟩; exact absurd h1 hn
    · constructor
      · intro h; norm_num at h
      · rintro ⟨hn, _⟩; exact absurd h1 hn
    · intro hTrue; rw [h1.2] at hTrue; simp at hTrue
  · rw [if_neg h1]
    by_cases h2 : 3 ≤ sc ∧ E = false
    · rw [if_pos h2]
      refine ⟨?_, ?_, ?_, ?_⟩
      · constructor
        · intro h; norm_num at h
        · intro hh; exact absurd hh h1
      · exact ⟨fun _ => ⟨h1, h2⟩, fun _ => rfl⟩
      · constructor
        · intro h; norm_num at h
        · rintro ⟨_, hn⟩; exact absurd h2 hn
      · intro hTrue; rw [h2.2] at hTrue; simp at hTrue
    · rw [if_neg h2]
      refine ⟨?_, ?_, ?_, ?_⟩
      · constructor
        · intro h; norm_num at h
        · intro hh; exact absurd hh h1
      · constructor
        · intro h; norm_num at h
        · rintro ⟨_, hh⟩; exact absurd hh h2
      · simp [h1, h2]
      · intro _; rfl

/-! ## Exhaustion detection -/

theorem mathSign_opposite_iff (x y : ℝ) :
    (mathSign x ≠ mathSign y ∧ mathSign x ≠ 0 ∧ mathSign y ≠ 0) ↔
      ((0 < x ∧ y < 0) ∨ (x < 0 ∧ 0 < y)) := by
  unfold mathSign
  rcases lt_trichotomy 0 x with hx | hx | hx <;> rcases lt_trichotomy 0 y with hy | hy | hy
  · rw [if_pos hx, if_pos hy]
    constructor
    · intro h; exact absurd rfl h.1
    · rintro (⟨ha, hb⟩ | ⟨ha, hb⟩) <;> linarith
  · subst hy
    rw [if_pos hx, if_neg (lt_irrefl (0 : ℝ)), if_neg (lt_irrefl (0 : ℝ))]
    norm_num
  · rw [if_pos hx, if_neg (asymm hy), if_pos hy]
    constructor
    · intro _; exact Or.inl ⟨hx, hy⟩
    · intro _; norm_num
  · subst hx
    rw [if_neg (lt_irrefl (0 : ℝ)), if_neg (lt_irrefl (0 : ℝ)), if_pos hy]
    norm_num
  · subst hx
    subst hy
    norm_num
  · subst hx
    rw [if_neg (lt_irrefl (0 : ℝ)), if_neg (lt_irrefl (0 : ℝ)), if_neg (asymm hy), if_pos hy]
    norm_num
  · rw [if_neg (asymm hx), if_pos hx, if_pos hy]
    constructor
    · intro _; exact Or.inr ⟨hx, hy⟩
    · intro _; norm_num
  · subst hy
    rw [if_neg (asymm hx), if_pos hx, if_neg (lt_irrefl (0 : ℝ)), if_neg (lt_irrefl (0 : ℝ))]
    norm_num
  · rw [if_neg (asymm hx), if_pos hx, if_neg (asymm hy), if_pos hy]
    constructor
    · intro h; exact absurd rfl h.1
    · rintro (⟨ha, hb⟩ | ⟨ha, hb⟩) <;> linarith

theorem indicator_congr {P Q : Prop} [Decidable P] [Decidable Q] (h : P ↔ Q) :
    (if P then (1 : ℕ) else 0) = if Q then 1 else 0 := by
  split_ifs <;> tauto

theorem exhaustionCount_eq_spec (s : CalcState) (ob : OrderbookState) :
    exhaustionCount s s.cvdSession (priceChangeOf s ob) (cvdSlopeOf s) =
      specExhaustionCount 0.05 s ob := by
  have e1 : exhaustionCond1 s.cvdSession (priceChangeOf s ob) ↔
      specCondA 0.05 s.cvdSession (priceChangeOf s ob) := Iff.rfl
  have e2 : exhaustionCond2 s.deltaHistory ↔ specCondB s.deltaHistory := by
    unfold exhaustionCond2 specCondB
    exact and_congr_right fun _ => mathSign_opposite_iff _ _
  have e4 : exhaustionCond4 s.volumeHistory ↔ specCondD s.volumeHistory := by
    unfold exhaustionCond4 specCondD
    constructor <;> rintro ⟨h1, h2⟩ <;> exact ⟨h1, by linarith⟩
  unfold exhaustionCount specExhaustionCount
  rw [indicator_congr e1, indicator_congr e2, indicator_congr e4]

/-- Claim C2 (amended): a metrics pass returns exhaustion = true exactly
when at least 3 of the 5 conditions hold, where condition (a) reads the
CVD sign opposing the fractional mid-price change beyond ±0.05 — that is,
beyond ±5 percent, not the ±0.05 percent the original claim stated.  In
particular a state meeting exactly 2 of these conditions yields false and
one meeting exactly 3 yields true. -/
theorem C2_exhaustion_majority (s : CalcState) (ob : OrderbookState) (now : ℤ) :
    (metricsOf s ob now).exhaustion = true ↔ 3 ≤ specExhaustionCount 0.05 s ob := by
  rw [metricsOf_exhaustion]
  unfold calculateExhaustion
  simp only [decide_eq_true_eq]
  rw [exhaustionCount_eq_spec]

/-- Claim C2 counterexample: with the threshold of condition (a) read as
0.05 percent (0.0005 on the fractional price change), a state and book
satisfying exactly 3 of the claimed conditions — positive session CVD
against a -0.1 percent mid-price move, a delta-history sign flip, and a
flat CVD slope — on which the pass still returns exhaustion = false,
because the code compares the fractional move against 0.05 (5 percent). -/
theorem C2_exhaustion_claim_counterexample :
    specExhaustionCount 0.0005 ceState ceOb = 3 ∧
      (metricsOf ceState ceOb 0).exhaustion = false := by
  have hmid : midPriceOf ceOb = 999 := by
    norm_num [midPriceOf, bestBidPriceOf, bestAskPriceOf, bestBid, bestAsk, ceOb, listMax, listMin]
  have hpc : priceChangeOf ceState ceOb = -0.001 := by
    rw [priceChangeOf, if_pos (by norm_num [EPSILON, ceState] :
      EPSILON < ceState.lastMidPrice), hmid]
    norm_num [ceState]
  have hslope : cvdSlopeOf ceState = 0 := by
    unfold cvdSlopeOf calculateSlope
    norm_num [ceState]
  have hlast : lastD ceState.deltaHistory = -1 := rfl
  have hprev : lastD ceState.deltaHistory.dropLast = 1 := rfl
  have c1 : specCondA 0.0005 ceState.cvdSession (priceChangeOf ceState ceOb) := by
    rw [hpc]
    exact Or.inl ⟨by norm_num [ceState], by norm_num⟩
  have c2 : specCondB ceState.deltaHistory := by
    refine ⟨by norm_num [ceState], Or.inr ⟨?_, ?_⟩⟩
    · rw [hlast]; norm_num
    · rw [hprev]; norm_num
  have c3 : exhaustionCond3 (cvdSlopeOf ceState) := by
    rw [exhaustionCond3, hslope]; norm_num
  have c4 : ¬specCondD ceState.volumeHistory := by
    intro h
    have := h.1
    norm_num [ceState] at this
  have c5 : ¬exhaustionCond5 ceState.deltaHistory := by
    intro h
    have := h.1
    norm_num [ceState] at this
  have d1 : ¬exhaustionCond1 ceState.cvdSession (priceChangeOf ceState ceOb) := by
    rw [hpc]
    rintro (⟨_, h⟩ | ⟨h, _⟩)
    · norm_num at h
    · norm_num [ceState] at h
  have d2 : exhaustionCond2 ceState.deltaHistory := by
    refine ⟨by norm_num [ceState], ?_, ?_, ?_⟩ <;>
      simp only [hlast, hprev] <;> norm_num [mathSign]
  have d4 : ¬exhaustionCond4 ceState.volumeHistory := by
    intro h
    have := h.1
    norm_num [ceState] at this
  constructor
  · unfold specExhaustionCount
    rw [if_pos c1, if_pos c2, if_pos c3, if_neg c4, if_neg c5]
  · rw [metricsOf_exhaustion]
    unfold calculateExhaustion
    have hcount : exhaustionCount ceState ceState.cvdSession (priceChangeOf ceState ceOb)
        (cvdSlopeOf ceState) = 2 := by
      unfold exhaustionCount
      rw [if_neg d1, if_pos d2, if_pos c3, if_neg d4, if_neg c5]
    rw [hcount]
    decide

/-! ## Open-interest tracker: trend and deltaPercent agree in sign -/

theorem updateOpenInterest_inv (s : OIState) (now : ℤ) (f : FetchOutcome)
    (hs : OIInv s) (hf : ∀ v, f = FetchOutcome.payload (some v) → 0 ≤ v) :
    OIInv (updateOpenInterest s now f).1 := by
  unfold updateOpenInterest
  by_cases h : now - s.lastFetchTime < FETCH_INTERVAL_MS ∧ 0 < s.currentOI
  · rw [if_pos h]
    exact hs
  · rw [if_neg h]
    cases f with
    | httpError => exact hs
    | thrown => exact hs
    | payload v =>
      cases v with
      | none =>
        obtain ⟨h1, h2, h3⟩ := hs
        exact ⟨h1, h2, h3⟩
      | some v =>
        have hv : 0 ≤ v := hf v rfl
        refine ⟨hv, ?_, ?_⟩
        · show 0 ≤ if 0 < s.currentOI then s.currentOI else v
          split_ifs with hc
          · exact le_of_lt hc
          · exact hv
        · show (if 0 < s.currentOI then s.currentOI else v) = 0 → v = 0
          intro hp
          split_ifs at hp with hc
          · exact absurd hp (ne_of_gt hc)
          · exact hp

theorem runOIOps_inv (ops : List (ℤ × FetchOutcome)) (s : OIState) (hs : OIInv s)
    (hops : oiNonNegOps ops) : OIInv (runOIOps s ops) := by
  induction ops generalizing s with
  | nil => exact hs
  | cons p rest ih =>
    obtain ⟨now, f⟩ := p
    show OIInv (runOIOps (updateOpenInterest s now f).1 rest)
    apply ih
    · apply updateOpenInterest_inv _ _ _ hs
      intro v hv
      exact hops (now, f) (List.mem_cons_self _ _) v hv
    · intro q hq v hv
      exact hops q (List.mem_cons_of_mem _ hq) v hv

/-- Claim C9: in every tracker state reachable through refresh calls with
non-negative fetched values, a snapshot whose trend is not FLAT has a
deltaPercent whose sign matches the trend: positive when UP, negative when
DOWN. -/
theorem C9_trend_delta_sign (ops : List (ℤ × FetchOutcome)) (now : ℤ)
    (hops : oiNonNegOps ops) :
    ((getMetrics (runOIOps initOIState ops) now).trend = OITrend.up →
        0 < (getMetrics (runOIOps initOIState ops) now).deltaPercent) ∧
      ((getMetrics (runOIOps initOIState ops) now).trend = OITrend.down →
        (getMetrics (runOIOps initOIState ops) now).deltaPercent < 0) := by
  have hinv : OIInv (runOIOps initOIState ops) :=
    runOIOps_inv ops initOIState ⟨le_refl 0, le_refl 0, fun _ => rfl⟩ hops
  set s := runOIOps initOIState ops with hsdef
  obtain ⟨hc, hp, hz⟩ := hinv
  have htrend : (getMetrics s now).trend =
      (if s.currentOI * 0.0005 < |s.currentOI - s.previousOI| then
        (if 0 < s.currentOI - s.previousOI then OITrend.up else OITrend.down)
       else OITrend.flat) := rfl
  have hdp : (getMetrics s now).deltaPercent =
      (if 0 < s.previousOI then (s.currentOI - s.previousOI) / s.previousOI * 100 else 0) := rfl
  rw [htrend, hdp]
  constructor
  · intro hup
    split_ifs at hup with h1 h2
    have hppos : 0 < s.previousOI := by
      rcases lt_or_eq_of_le hp with hpp | hpp
      · exact hpp
      · exfalso
        have hc0 := hz hpp.symm
        rw [hc0, ← hpp] at h2
        norm_num at h2
    rw [if_pos hppos]
    exact mul_pos (div_pos h2 hppos) (by norm_num)
  · intro hdown
    split_ifs at hdown with h1 h2
    have hne : s.currentOI - s.previousOI ≠ 0 := by
      have h0 : (0 : ℝ) ≤ s.currentOI * 0.0005 := mul_nonneg hc (by norm_num)
      have := lt_of_le_of_lt h0 h1
      exact abs_pos.mp this
    have hneg : s.currentOI - s.previousOI < 0 := lt_of_le_of_ne (not_lt.mp h2) hne
    have hppos : 0 < s.previousOI := by linarith
    rw [if_pos hppos]
    exact mul_neg_of_neg_of_pos (div_neg_of_neg_of_pos hneg hppos) (by norm_num)

theorem C9_trend_delta_sign_witness :
    oiNonNegOps [] ∧
      (((getMetrics (runOIOps initOIState []) 0).trend = OITrend.up →
          0 < (getMetrics (runOIOps initOIState []) 0).deltaPercent) ∧
        ((getMetrics (runOIOps initOIState []) 0).trend = OITrend.down →
          (getMetrics (runOIOps initOIState []) 0).deltaPercent < 0)) :=
  ⟨fun p hp => absurd hp (List.not_mem_nil p),
    C9_trend_delta_sign [] 0 (fun p hp => absurd hp (List.not_mem_nil p))⟩

/-! ## Bounded histories and window freshness under operation sequences -/

theorem getLast?_dropWhile_concat {α : Type} (p : α → Bool) (t : α) (hp : p t = false) :
    ∀ l : List α, ((l ++ [t]).dropWhile p).getLast? = some t := by
  intro l
  induction l with
  | nil =>
    simp [List.dropWhile_cons, hp]
  | cons a l ih =>
    rw [List.cons_append, List.dropWhile_cons]
    split_ifs with ha
    · exact ih
    · rw [← List.cons_append, List.getLast?_concat]

theorem mem_dropWhile_ge (c : ℤ) :
    ∀ l : List LegacyTrade, l.Pairwise (fun a b => a.timestamp ≤ b.timestamp) →
      ∀ x ∈ l.dropWhile (fun a => decide (a.timestamp < c)), c ≤ x.timestamp := by
  intro l
  induction l with
  | nil =>
    intro _ x hx
    simp at hx
  | cons a l ih =>
    intro hpw x hx
    rw [List.dropWhile_cons] at hx
    split_ifs at hx with ha
    · exact ih (List.pairwise_cons.mp hpw).2 x hx
    · have ha' : c ≤ a.timestamp := by
        simp only [decide_eq_true_eq] at ha
        omega
      rcases List.mem_cons.mp hx with rfl | hx2
      · exact ha'
      · exact le_trans ha' ((List.pairwise_cons.mp hpw).1 x hx2)

theorem pairwise_le_getLast :
    ∀ l : List LegacyTrade, l.Pairwise (fun a b => a.timestamp ≤ b.timestamp) →
      ∀ x ∈ l, ∀ u, l.getLast? = some u → x.timestamp ≤ u.timestamp := by
  intro l
  induction l with
  | nil =>
    intro _ x hx
    simp at hx
  | cons a l ih =>
    intro hpw x hx u hu
    obtain ⟨hhead, htail⟩ := List.pairwise_cons.mp hpw
    cases l with
    | nil =>
      have hxa : x = a := by simpa using hx
      have hua : u = a := by
        have hgl : (([a] : List LegacyTrade)).getLast? = some a := rfl
        rw [hgl] at hu
        exact (Option.some_inj.mp hu).symm
      rw [hxa, hua]
    | cons b l2 =>
      rw [List.getLast?_cons_cons] at hu
      rcases List.mem_cons.mp hx with rfl | hx2
      · exact hhead u (List.mem_of_getLast?_eq_some hu)
      · exact ih htail x hx2 u hu

theorem addTrade_trades (s : CalcState) (t : LegacyTrade) :
    (addTrade s t).trades =
      (s.trades ++ [t]).dropWhile (fun x => decide (x.timestamp < t.timestamp - 10000)) := rfl

theorem addTrade_getLast? (s : CalcState) (t : LegacyTrade) :
    (addTrade s t).trades.getLast? = some t := by
  rw [addTrade_trades]
  apply getLast?_dropWhile_concat
  simp only [decide_eq_false_iff_not]
  omega

theorem addTrade_inv (s : CalcState) (t : LegacyTrade) (hs : CalcInv s)
    (hle : ∀ u, s.trades.getLast? = some u → u.timestamp ≤ t.timestamp) :
    CalcInv (addTrade s t) := by
  obtain ⟨h1, h2, h3, h4, hpw, _⟩ := hs
  have hallle : ∀ x ∈ s.trades, x.timestamp ≤ t.timestamp := by
    intro x hx
    cases hgl : s.trades.getLast? with
    | none =>
      rw [List.getLast?_eq_none_iff] at hgl
      rw [hgl] at hx
      simp at hx
    | some u => exact le_trans (pairwise_le_getLast s.trades hpw x hx u hgl) (hle u hgl)
  have hpw2 : (s.trades ++ [t]).Pairwise (fun a b => a.timestamp ≤ b.timestamp) := by
    rw [List.pairwise_append]
    refine ⟨hpw, List.pairwise_singleton _ _, fun a ha b hb => ?_⟩
    have hbt : b = t := by simpa using hb
    rw [hbt]
    exact hallle a ha
  refine ⟨?_, ?_, ?_, ?_, ?_, ?_⟩
  · show (pushCapped s.deltaHistory _ 60).length ≤ 60
    exact pushCapped_length_le _ _ _ h1
  · show (pushCapped s.cvdHistory _ 60).length ≤ 60
    exact pushCapped_length_le _ _ _ h2
  · show (pushCapped s.volumeHistory _ 100).length ≤ 100
    exact pushCapped_length_le _ _ _ h3
  · exact h4
  · rw [addTrade_trades]
    exact List.Pairwise.sublist (List.dropWhile_sublist _) hpw2
  · intro x hx u hu
    rw [addTrade_getLast?] at hu
    obtain rfl := Option.some_inj.mp hu
    rw [addTrade_trades] at hx
    have := mem_dropWhile_ge (t.timestamp - 10000) (s.trades ++ [t]) hpw2 x hx
    omega

theorem computeMetrics_inv (s : CalcState) (ob : OrderbookState) (now : ℤ)
    (hs : CalcInv s) : CalcInv (computeMetrics s ob now).2 := by
  obtain ⟨h1, h2, h3, h4, hpw, hfresh⟩ := hs
  refine ⟨h1, h2, h3, ?_, hpw, hfresh⟩
  show (calculateRegimeWeight s).2.length ≤ 3600
  rw [regime_snd]
  split_ifs
  · exact pushCapped_length_le _ _ _ h4
  · exact h4

theorem runOps_inv : ∀ (ops : List CalcOp) (s : CalcState), CalcInv s →
    opsMonoFrom (lastTs? s) ops → CalcInv (runOps s ops) := by
  intro ops
  induction ops with
  | nil =>
    intro s hs _
    exact hs
  | cons op rest ih =>
    intro s hs hmono
    cases op with
    | ingest t =>
      obtain ⟨hprev, hrest⟩ := hmono
      have hle : ∀ u, s.trades.getLast? = some u → u.timestamp ≤ t.timestamp := by
        intro u hu
        refine hprev u.timestamp ?_
        have hdef : lastTs? s = (s.trades.getLast?).map (fun x => x.timestamp) := rfl
        rw [hdef, hu]
        rfl
      show CalcInv (runOps (addTrade s t) rest)
      apply ih _ (addTrade_inv s t hs hle)
      have hts : lastTs? (addTrade s t) = some t.timestamp := by
        have hdef : lastTs? (addTrade s t) =
            ((addTrade s t).trades.getLast?).map (fun x => x.timestamp) := rfl
        rw [hdef, addTrade_getLast?]
        rfl
      rw [hts]
      exact hrest
    | pass ob now =>
      show CalcInv (runOps (computeMetrics s ob now).2 rest)
      apply ih _ (computeMetrics_inv s ob now hs)
      have hts : lastTs? (computeMetrics s ob now).2 = lastTs? s := rfl
      rw [hts]
      exact hmono

theorem lastTs_runOps : ∀ (ops : List CalcOp) (s : CalcState),
    lastTs? (runOps s ops) = latestIngestFrom (lastTs? s) ops := by
  intro ops
  induction ops with
  | nil =>
    intro s
    rfl
  | cons op rest ih =>
    intro s
    cases op with
    | ingest t =>
      show lastTs? (runOps (addTrade s t) rest) = latestIngestFrom (some t.timestamp) rest
      rw [ih]
      have hts : lastTs? (addTrade s t) = some t.timestamp := by
        have hdef : lastTs? (addTrade s t) =
            ((addTrade s t).trades.getLast?).map (fun x => x.timestamp) := rfl
        rw [hdef, addTrade_getLast?]
        rfl
      rw [hts]
    | pass ob now =>
      show lastTs? (runOps (computeMetrics s ob now).2 rest) = latestIngestFrom (lastTs? s) rest
      rw [ih]
      rfl

/-- Claim C5: starting from a fresh calculator and running any sequence of
ingests (with non-decreasing timestamps) and metrics passes, deltaHistory
and cvdHistory hold at most 60 entries, volumeHistory at most 100,
volatilityHistory at most 3600, and no window entry is more than 10,000 ms
older than the latest ingested trade. -/
theorem C5_bounded_histories (ops : List CalcOp) (hmono : opsMonoFrom none ops) :
    (runOps initState ops).deltaHistory.length ≤ 60 ∧
      (runOps initState ops).cvdHistory.length ≤ 60 ∧
      (runOps initState ops).volumeHistory.length ≤ 100 ∧
      (runOps initState ops).volatilityHistory.length ≤ 3600 ∧
      ∀ x ∈ (runOps initState ops).trades, ∀ m, latestIngestFrom none ops = some m →
        m - 10000 ≤ x.timestamp := by
  have hinit : CalcInv initState := by
    refine ⟨by simp [initState], by simp [initState], by simp [initState],
      by simp [initState], by simp [initState], ?_⟩
    intro x hx
    simp [initState] at hx
  have hmono2 : opsMonoFrom (lastTs? initState) ops := hmono
  obtain ⟨h1, h2, h3, h4, hpw, hfresh⟩ := runOps_inv ops initState hinit hmono2
  refine ⟨h1, h2, h3, h4, ?_⟩
  intro x hx m hm
  have hlt := lastTs_runOps ops initState
  rw [show lastTs? initState = none from rfl, hm] at hlt
  cases hgl : (runOps initState ops).trades.getLast? with
  | none =>
    have hdef : lastTs? (runOps initState ops) =
        ((runOps initState ops).trades.getLast?).map (fun y => y.timestamp) := rfl
    rw [hdef, hgl] at hlt
    exact absurd hlt (by simp)
  | some u =>
    have hum : u.timestamp = m := by
      have hdef : lastTs? (runOps initState ops) =
          ((runOps initState ops).trades.getLast?).map (fun y => y.timestamp) := rfl
      rw [hdef, hgl] at hlt
      exact Option.some_inj.mp hlt
    have := hfresh x hx u hgl
    omega

theorem C5_bounded_histories_witness :
    opsMonoFrom none ([] : List CalcOp) ∧
      ((runOps initState []).deltaHistory.length ≤ 60 ∧
        (runOps initState []).cvdHistory.length ≤ 60 ∧
        (runOps initState []).volumeHistory.length ≤ 100 ∧
        (runOps initState []).volatilityHistory.length ≤ 3600 ∧
        ∀ x ∈ (runOps initState []).trades, ∀ m, latestIngestFrom none ([] : List CalcOp) = some m →
          m - 10000 ≤ x.timestamp) :=
  ⟨trivial, C5_bounded_histories [] trivial⟩

/-! ## Declared ranges of every published score -/

theorem clamp_bounds (x : ℝ) : -1 ≤ max (-1) (min 1 x) ∧ max (-1) (min 1 x) ≤ 1 :=
  ⟨le_max_left _ _, max_le (by norm_num) (min_le_left _ _)⟩

theorem calculateStdDev_nonneg (values : List ℝ) : 0 ≤ calculateStdDev values := by
  simp only [calculateStdDev]
  split_ifs
  · exact le_refl 0
  · exact Real.sqrt_nonneg _

theorem sweepFade_bounds (trades : List LegacyTrade) (spread midPrice : ℝ) :
    -1 ≤ calculateSweepFadeScore trades spread midPrice ∧
      calculateSweepFadeScore trades spread midPrice ≤ 1 := by
  simp only [calculateSweepFadeScore]
  split_ifs <;> constructor <;>
    first
      | exact le_max_left _ _
      | exact max_le (by norm_num) (min_le_left _ _)
      | norm_num

theorem breakout_bounds (s : CalcState) (d : ℝ) :
    -1 ≤ calculateBreakoutScore s d ∧ calculateBreakoutScore s d ≤ 1 := by
  simp only [calculateBreakoutScore]
  split_ifs <;> constructor <;>
    first
      | exact le_max_left _ _
      | exact max_le (by norm_num) (min_le_left _ _)
      | norm_num

theorem regime_fst_bounds (s : CalcState) :
    0 ≤ (calculateRegimeWeight s).1 ∧ (calculateRegimeWeight s).1 ≤ 1 := by
  simp only [calculateRegimeWeight]
  split_ifs with g1 g2 g3 g4
  · norm_num
  · norm_num
  · norm_num
  · norm_num
  · have hm := lt_of_lt_of_le (show (0 : ℝ) < EPSILON by norm_num [EPSILON]) (not_lt.mp g4)
    constructor
    · simp only [Prod.fst]
      exact le_min (by norm_num) (div_nonneg (calculateStdDev_nonneg _) (le_of_lt hm))
    · simp only [Prod.fst]
      exact min_le_left _ _

theorem takeLast_subset {α : Type} (n : ℕ) (l : List α) : takeLast n l ⊆ l :=
  List.drop_subset _ _

set_option maxHeartbeats 1600000 in
theorem absorption_bounds (s : CalcState) (d : ℝ)
    (hq : ∀ t ∈ s.trades, 0 ≤ t.quantity) :
    0 ≤ calculateAbsorptionScore s d ∧ calculateAbsorptionScore s d ≤ 1 := by
  have hqw : ∀ x ∈ (takeLast ABSORPTION_WINDOW s.trades).map (fun t => t.quantity), 0 ≤ x := by
    intro x hx
    obtain ⟨t, ht, rfl⟩ := List.mem_map.mp hx
    exact hq t (takeLast_subset _ _ ht)
  have hrv : (0 : ℝ) ≤
      (takeLast 10 ((takeLast ABSORPTION_WINDOW s.trades).map (fun t => t.quantity))).sum :=
    List.sum_nonneg fun x hx => hqw x (takeLast_subset _ _ hx)
  have hav : (0 : ℝ) ≤ ((takeLast ABSORPTION_WINDOW s.trades).map (fun t => t.quantity)).sum :=
    List.sum_nonneg hqw
  simp only [calculateAbsorptionScore]
  split_ifs
  · norm_num
  · norm_num
  all_goals refine ⟨le_min (by norm_num) ?_, min_le_left _ _⟩
  all_goals repeat' apply mul_nonneg
  all_goals first
    | exact le_max_left _ _
    | (refine div_nonneg (le_min (by norm_num) ?_) (by norm_num)
       exact div_nonneg (div_nonneg hrv (by positivity)) (div_nonneg hav (by positivity)))
    | (have hmle := min_le_left (1 : ℝ)
        (calculateStdDev (takeLast 5 s.deltaHistory) / (|d| + EPSILON))
       linarith)
    | positivity
    | norm_num

theorem insertByAsc_perm (x : ℝ × ℝ) : ∀ l, List.Perm (insertByAsc x l) (x :: l) := by
  intro l
  induction l with
  | nil => exact List.Perm.refl _
  | cons y ys ih =>
    simp only [insertByAsc]
    split_ifs
    · exact List.Perm.refl _
    · exact List.Perm.trans (List.Perm.cons y ih) (List.Perm.swap x y ys)

theorem sortAsc_perm : ∀ l, List.Perm (sortAsc l) l := by
  intro l
  induction l with
  | nil => exact List.Perm.refl _
  | cons x xs ih =>
    exact List.Perm.trans (insertByAsc_perm x (sortAsc xs)) (List.Perm.cons x ih)

theorem insertByDesc_perm (x : ℝ × ℝ) : ∀ l, List.Perm (insertByDesc x l) (x :: l) := by
  intro l
  induction l with
  | nil => exact List.Perm.refl _
  | cons y ys ih =>
    simp only [insertByDesc]
    split_ifs
    · exact List.Perm.refl _
    · exact List.Perm.trans (List.Perm.cons y ih) (List.Perm.swap x y ys)

theorem sortDesc_perm : ∀ l, List.Perm (sortDesc l) l := by
  intro l
  induction l with
  | nil => exact List.Perm.refl _
  | cons x xs ih =>
    exact List.Perm.trans (insertByDesc_perm x (sortDesc xs)) (List.Perm.cons x ih)

theorem calcVolume_nonneg (levels : List (ℝ × ℝ)) (depth : ℕ) (isAsk : Bool)
    (h : ∀ p ∈ levels, 0 ≤ p.2) : 0 ≤ calcVolume levels depth isAsk := by
  simp only [calcVolume]
  apply List.sum_nonneg
  intro x hx
  obtain ⟨p, hp, rfl⟩ := List.mem_map.mp hx
  have hsub : p ∈ (if isAsk then sortAsc levels else sortDesc levels) :=
    List.take_subset _ _ hp
  have hmem : p ∈ levels := by
    split_ifs at hsub
    · exact ((sortAsc_perm levels).mem_iff).mp hsub
    · exact ((sortDesc_perm levels).mem_iff).mp hsub
  exact h p hmem

theorem obi_bounds (b a : ℝ) (hb : 0 ≤ b) (ha : 0 ≤ a) :
    -1 ≤ (if EPSILON < b + a then (b - a) / (b + a) else 0) ∧
      (if EPSILON < b + a then (b - a) / (b + a) else 0) ≤ 1 := by
  split_ifs with h
  · have hpos : 0 < b + a := lt_trans (by norm_num [EPSILON]) h
    constructor
    · rw [le_div_iff₀ hpos]
      linarith
    · rw [div_le_one hpos]
      linarith
  · norm_num

theorem obiWeightedOf_bounds (ob : OrderbookState)
    (hb : ∀ p ∈ ob.bids, 0 ≤ p.2) (ha : ∀ p ∈ ob.asks, 0 ≤ p.2) :
    -1 ≤ obiWeightedOf ob ∧ obiWeightedOf ob ≤ 1 := by
  have h1 := calcVolume_nonneg ob.bids 10 false hb
  have h2 := calcVolume_nonneg ob.asks 10 true ha
  simp only [obiWeightedOf]
  exact obi_bounds _ _ h1 h2

theorem obiDeepOf_bounds (ob : OrderbookState)
    (hb : ∀ p ∈ ob.bids, 0 ≤ p.2) (ha : ∀ p ∈ ob.asks, 0 ≤ p.2) :
    -1 ≤ obiDeepOf ob ∧ obiDeepOf ob ≤ 1 := by
  have h1 := calcVolume_nonneg ob.bids 50 false hb
  have h2 := calcVolume_nonneg ob.asks 50 true ha
  simp only [obiDeepOf]
  exact obi_bounds _ _ h1 h2

theorem mem_foldl_trades : ∀ (ts : List LegacyTrade) (s : CalcState) (x : LegacyTrade),
    x ∈ (ts.foldl addTrade s).trades → x ∈ s.trades ∨ x ∈ ts := by
  intro ts
  induction ts with
  | nil =>
    intro s x hx
    exact Or.inl hx
  | cons t rest ih =>
    intro s x hx
    rcases ih (addTrade s t) x hx with h | h
    · rw [addTrade_trades] at h
      rcases List.mem_append.mp ((List.dropWhile_sublist _).subset h) with h2 | h2
      · exact Or.inl h2
      · have hxt : x = t := by simpa using h2
        exact Or.inr (by rw [hxt]; exact List.mem_cons_self _ _)
    · exact Or.inr (List.mem_cons_of_mem _ h)

/-- Claim C1: after ingesting any finite sequence of trades with
non-negative prices and quantities, a metrics pass against any order-book
snapshot (whose level quantities are non-negative, as they are for an order
book) publishes a snapshot within all declared ranges: obiWeighted and
obiDeep in [-1,1], obiDivergence in [-2,2], sweepFadeScore and
breakoutScore in [-1,1], regimeWeight and absorptionScore in [0,1], and
tradeSignal in {-1,0,1}. -/
theorem C1_score_ranges (ts : List LegacyTrade) (ob : OrderbookState) (now : ℤ)
    (hts : ∀ t ∈ ts, 0 ≤ t.price ∧ 0 ≤ t.quantity)
    (hb : ∀ p ∈ ob.bids, 0 ≤ p.2) (ha : ∀ p ∈ ob.asks, 0 ≤ p.2) :
    rangesOK (metricsOf (ts.foldl addTrade initState) ob now) := by
  set s := ts.foldl addTrade initState with hsdef
  have hq : ∀ t ∈ s.trades, 0 ≤ t.quantity := by
    intro t ht
    rcases mem_foldl_trades ts initState t ht with h | h
    · simp [initState] at h
    · exact (hts t h).2
  have hw := obiWeightedOf_bounds ob hb ha
  have hd := obiDeepOf_bounds ob hb ha
  have hsf := sweepFade_bounds s.trades (spreadOf ob) (midPriceOf ob)
  have hbk := breakout_bounds s (delta1sOf s now)
  have hrg := regime_fst_bounds s
  have hab := absorption_bounds s (delta1sOf s now) hq
  unfold rangesOK
  rw [metricsOf_obiWeighted, metricsOf_obiDeep, metricsOf_obiDivergence,
    metricsOf_sweepFadeScore, metricsOf_breakoutScore, metricsOf_regimeWeight,
    metricsOf_absorptionScore, metricsOf_tradeSignal]
  refine ⟨hw.1, hw.2, hd.1, hd.2, ?_, ?_, hsf.1, hsf.2, hbk.1, hbk.2,
    hrg.1, hrg.2, hab.1, hab.2, ?_⟩
  · unfold obiDivergenceOf
    linarith [hw.1, hw.2, hd.1, hd.2]
  · unfold obiDivergenceOf
    linarith [hw.1, hw.2, hd.1, hd.2]
  · split_ifs
    · right; right; rfl
    · left; rfl
    · right; left; rfl

theorem C1_score_ranges_witness :
    (∀ t ∈ ([] : List LegacyTrade), 0 ≤ t.price ∧ 0 ≤ t.quantity) ∧
      rangesOK (metricsOf (([] : List LegacyTrade).foldl addTrade initState)
        { bids := [], asks := [] } 0) :=
  ⟨fun t ht => absurd ht (List.not_mem_nil t),
    C1_score_ranges [] { bids := [], asks := [] } 0
      (fun t ht => absurd ht (List.not_mem_nil t))
      (fun p hp => absurd hp (List.not_mem_nil p))
      (fun p hp => absurd hp (List.not_mem_nil p))⟩

end Orderflow
